import Mathlib

/-!
Verification of the appointment-booking store.

This file gives a shallow embedding of the in-memory appointment service
(slot generation, availability query, booking creation, status updates,
availability rules, CSV export) and proves or refutes the specified
properties against it.  JavaScript method calls that mutate the service
object are modelled as pure functions from a store state to a result
paired with the successor state; nondeterministic fresh ids and wall-clock
timestamps are passed as explicit parameters.
-/

namespace AppointmentStore

/-- Status of a booking: the union type pending | approved | denied. -/
inductive BookingStatus where
  | pending
  | approved
  | denied
  deriving DecidableEq, Repr

/-- Mirrors the TimeSlot interface: id, date (ISO date string), time
(HH:MM string) and the static available flag. -/
structure TimeSlot where
  id : String
  date : String
  time : String
  available : Bool
  deriving DecidableEq, Repr

/-- Mirrors the Booking interface. -/
structure Booking where
  id : String
  slotId : String
  name : String
  email : String
  reason : String
  status : BookingStatus
  date : String
  time : String
  createdAt : String
  deriving DecidableEq, Repr

/-- Mirrors the AvailabilityRule interface; the optional reason field
becomes an Option. -/
structure AvailabilityRule where
  id : String
  date : String
  timeSlots : List String
  isBlocked : Bool
  reason : Option String
  createdAt : String
  deriving DecidableEq, Repr

/-- The three private collections of the AppointmentService class. -/
structure StoreState where
  bookings : List Booking
  slots : List TimeSlot
  availabilityRules : List AvailabilityRule
  deriving DecidableEq, Repr

/-- The slot ids referenced by non-denied bookings, as computed at the top
of getAvailableSlots: filter status not denied, then map to slotId. -/
def bookedSlotIds (s : StoreState) : List String :=
  (s.bookings.filter (fun b => !(b.status == BookingStatus.denied))).map (fun b => b.slotId)

/-- The slot ids blocked by availability rules, as computed in
getAvailableSlots: for every rule with isBlocked set, every id
rule.date ++ "-" ++ time for time in rule.timeSlots. -/
def blockedSlotIds (s : StoreState) : List String :=
  (s.availabilityRules.filter (fun r => r.isBlocked)).flatMap
    (fun r => r.timeSlots.map (fun t => r.date ++ "-" ++ t))

/-- getAvailableSlots: returns every generated slot with the available
flag recomputed as "not booked by a non-denied booking and not blocked by
a rule"; the state is returned unchanged since the method assigns to no
field of the service. -/
def getAvailableSlots (s : StoreState) : List TimeSlot × StoreState :=
  (s.slots.map (fun slot =>
    { slot with
      available := !((bookedSlotIds s).contains slot.id) &&
                   !((blockedSlotIds s).contains slot.id) }), s)

/-- The argument record of createBooking. -/
structure BookingRequest where
  slotId : String
  name : String
  email : String
  reason : String
  deriving DecidableEq, Repr

/-- The booking record literal built on the success path of
createBooking: fresh id, the request fields, status pending, date and
time denormalized from the slot, and the current timestamp. -/
def newBooking (data : BookingRequest) (slot : TimeSlot) (freshId createdAt : String) :
    Booking :=
  { id := freshId, slotId := data.slotId, name := data.name, email := data.email,
    reason := data.reason, status := BookingStatus.pending, date := slot.date,
    time := slot.time, createdAt := createdAt }

/-- createBooking: the validation cascade and conflict check, then append
of the new pending booking.  The JavaScript falsiness test on a string
field is exactly the test for the empty string, and the includes test for
the at sign is expressed as membership in the character list of the email
(the two are equivalent).  The generated id and the creation timestamp
are parameters. -/
def createBooking (s : StoreState) (data : BookingRequest) (freshId createdAt : String) :
    Except String Booking × StoreState :=
  if data.name == "" || data.email == "" || data.reason == "" then
    (Except.error "Missing required information", s)
  else if !(data.email.data.contains '@') then
    (Except.error "Invalid email address", s)
  else
    match s.slots.find? (fun sl => sl.id == data.slotId) with
    | none => (Except.error "Invalid time slot", s)
    | some slot =>
      match s.bookings.find? (fun b =>
          b.slotId == data.slotId && !(b.status == BookingStatus.denied)) with
      | some _ => (Except.error "Time slot is already booked", s)
      | none =>
        let booking := newBooking data slot freshId createdAt
        (Except.ok booking, { s with bookings := s.bookings ++ [booking] })

/-- Overwrite the status of the first booking with the given id, leaving
the rest of the collection untouched: the in-place mutation performed by
updateBookingStatus on the booking found by find. -/
def applyStatusFirst (bookingId : String) (status : BookingStatus) :
    List Booking → List Booking
  | [] => []
  | b :: rest =>
    if b.id == bookingId then { b with status := status } :: rest
    else b :: applyStatusFirst bookingId status rest

/-- updateBookingStatus: find the booking by id; if absent return the
not-found error, otherwise unconditionally overwrite its status and
return the updated booking. -/
def updateBookingStatus (s : StoreState) (bookingId : String) (status : BookingStatus) :
    Except String Booking × StoreState :=
  match s.bookings.find? (fun b => b.id == bookingId) with
  | none => (Except.error "Booking not found", s)
  | some b =>
    (Except.ok { b with status := status },
     { s with bookings := applyStatusFirst bookingId status s.bookings })

/-- Render one CSV field exactly as the export does: surround with double
quotes, with no escaping of the content. -/
def csvField (field : String) : String := "\"" ++ field ++ "\""

/-- The literal string of a booking status. -/
def statusString : BookingStatus → String
  | BookingStatus.pending => "pending"
  | BookingStatus.approved => "approved"
  | BookingStatus.denied => "denied"

/-- The CSV header row of exportBookingsCSV. -/
def csvHeaders : List String :=
  ["ID", "Name", "Email", "Date", "Time", "Reason", "Status", "Created At"]

/-- The field list of one booking row.  The formatTimestamp parameter
models the locale- and environment-dependent toLocaleString rendering of
the creation timestamp. -/
def bookingRow (formatTimestamp : String → String) (b : Booking) : List String :=
  [b.id, b.name, b.email, b.date, b.time, b.reason, statusString b.status,
   formatTimestamp b.createdAt]

/-- exportBookingsCSV: header row followed by one row per booking in
collection order, every field wrapped in double quotes, fields joined by
commas and rows by newlines. -/
def exportBookingsCSV (formatTimestamp : String → String) (s : StoreState) : String :=
  String.intercalate "\n"
    ((csvHeaders :: s.bookings.map (bookingRow formatTimestamp)).map
      (fun row => String.intercalate "," (row.map (fun field => "\"" ++ field ++ "\""))))

/-- The argument record of setAvailability. -/
structure AvailabilityRequest where
  date : String
  timeSlots : List String
  isBlocked : Bool
  reason : Option String
  deriving DecidableEq, Repr

/-- The rule record literal built by setAvailability: fresh id, the
request fields and the current timestamp. -/
def mkRule (data : AvailabilityRequest) (freshId createdAt : String) : AvailabilityRule :=
  { id := freshId, date := data.date, timeSlots := data.timeSlots,
    isBlocked := data.isBlocked, reason := data.reason, createdAt := createdAt }

/-- setAvailability: drop every existing rule for the same date, then
append the freshly built rule; always succeeds. -/
def setAvailability (s : StoreState) (data : AvailabilityRequest) (freshId createdAt : String) :
    Except String AvailabilityRule × StoreState :=
  let kept := s.availabilityRules.filter (fun rule => !(rule.date == data.date))
  let rule := mkRule data freshId createdAt
  (Except.ok rule, { s with availabilityRules := kept ++ [rule] })

/-- Remove the first rule carrying the given id: the findIndex plus
splice(index, 1) of deleteAvailabilityRule. -/
def removeFirstRule (ruleId : String) : List AvailabilityRule → List AvailabilityRule
  | [] => []
  | r :: rest => if r.id == ruleId then rest else r :: removeFirstRule ruleId rest

/-- deleteAvailabilityRule: not-found error when no rule has the id,
otherwise remove the first rule with that id. -/
def deleteAvailabilityRule (s : StoreState) (ruleId : String) :
    Except String Unit × StoreState :=
  if s.availabilityRules.any (fun r => r.id == ruleId) then
    (Except.ok (), { s with availabilityRules := removeFirstRule ruleId s.availabilityRules })
  else (Except.error "Availability rule not found", s)

/-- JavaScript getDay on a day number counted from 1970-01-01: 0 is
Sunday through 6 is Saturday (1970-01-01 was a Thursday). -/
def weekdayOf (d : Int) : Int := (d + 4) % 7

/-- getStartOfWeek, in day numbers over the local calendar: the method
reads the local weekday of today and shifts today to the Monday of the
current week via setDate (with the Sunday special case), keeping the
local time of day. -/
def getStartOfWeek (todayLocal : Int) : Int :=
  let day := weekdayOf todayLocal
  todayLocal - day + (if day == 0 then -6 else 1)

/-- Convert a day number counted from 1970-01-01 to the civil calendar
date (year, month, day), the standard days-to-civil algorithm used by
date libraries; this is what toISOString renders for the date part. -/
def civilFromDays (z0 : Int) : Int × Int × Int :=
  let z := z0 + 719468
  let era := z.fdiv 146097
  let doe := z - era * 146097
  let yoe := (doe - doe.fdiv 1460 + doe.fdiv 36524 - doe.fdiv 146096).fdiv 365
  let y := yoe + era * 400
  let doy := doe - (365 * yoe + yoe.fdiv 4 - yoe.fdiv 100)
  let mp := (5 * doy + 2).fdiv 153
  let d := doy - (153 * mp + 2).fdiv 5 + 1
  let m := mp + (if mp < 10 then 3 else -9)
  (y + (if m <= 2 then 1 else 0), m, d)

/-- Left-pad a nonnegative number to two digits, as padStart(2, zero)
does in the slot generator. -/
def pad2 (n : Int) : String :=
  if n < 10 then "0" ++ toString n else toString n

/-- Left-pad a year to four digits, as toISOString renders it. -/
def pad4 (n : Int) : String :=
  if n < 10 then "000" ++ toString n
  else if n < 100 then "00" ++ toString n
  else if n < 1000 then "0" ++ toString n
  else toString n

/-- The date part of toISOString for the given UTC day number. -/
def toISODate (day : Int) : String :=
  match civilFromDays day with
  | (y, m, d) => pad4 y ++ "-" ++ pad2 m ++ "-" ++ pad2 d

/-- The sixteen time strings generated per day: hours 9 through 16,
minutes 0 and 30, each component padded to two digits. -/
def slotTimes : List String :=
  (List.range 8).flatMap (fun h =>
    [pad2 (9 + h) ++ ":" ++ pad2 0, pad2 (9 + h) ++ ":" ++ pad2 30])

/-- The five UTC day numbers whose dates the generator stamps on slots.
The loop iterates local dates Monday + 0 .. Monday + 4 at the process
start wall-clock time of day, but renders each via toISOString, which
uses UTC; with timeOfDayMin the local time of day in minutes and
tzOffsetMin the offset of local time ahead of UTC in minutes, every
rendered date is shifted from the local date by
floor((timeOfDayMin - tzOffsetMin) / 1440) days. -/
def generatedDates (todayLocal timeOfDayMin tzOffsetMin : Int) : List Int :=
  let startDay := getStartOfWeek todayLocal
  let utcShift := (timeOfDayMin - tzOffsetMin).fdiv 1440
  (List.range 5).map (fun day => startDay + (day : Int) + utcShift)

/-- generateWeeklySlots: for each of the five generated dates, sixteen
slots with id date ++ "-" ++ time, statically available. -/
def generateWeeklySlots (todayLocal timeOfDayMin tzOffsetMin : Int) : List TimeSlot :=
  (generatedDates todayLocal timeOfDayMin tzOffsetMin).flatMap (fun d =>
    let dateStr := toISODate d
    slotTimes.map (fun time =>
      { id := dateStr ++ "-" ++ time, date := dateStr, time := time, available := true }))

/-- The state built by the service constructor: generated slots, no
bookings, no availability rules. -/
def initialState (todayLocal timeOfDayMin tzOffsetMin : Int) : StoreState :=
  { bookings := [], slots := generateWeeklySlots todayLocal timeOfDayMin tzOffsetMin,
    availabilityRules := [] }

/-! ## Derived predicates and helper lemmas -/

/-- Slot ids of the non-denied bookings in a collection.  The booking
invariant of the specification says this list never repeats an id. -/
def nonDeniedSlotIds (l : List Booking) : List String :=
  (l.filter (fun b => !(b.status == BookingStatus.denied))).map (fun b => b.slotId)

/-- At most one non-denied booking references any given slot id. -/
def NoDoubleBook (l : List Booking) : Prop := (nonDeniedSlotIds l).Nodup

instance (l : List Booking) : Decidable (NoDoubleBook l) :=
  inferInstanceAs (Decidable (nonDeniedSlotIds l).Nodup)

/-- Some non-denied booking of the state references the slot id. -/
def BookedBy (s : StoreState) (sid : String) : Prop :=
  ∃ b ∈ s.bookings, b.status ≠ BookingStatus.denied ∧ b.slotId = sid

/-- Some blocking availability rule of the state covers the slot id. -/
def RuleBlocked (s : StoreState) (sid : String) : Prop :=
  ∃ r ∈ s.availabilityRules, r.isBlocked = true ∧ ∃ t ∈ r.timeSlots, r.date ++ "-" ++ t = sid

lemma bookedSlotIds_contains_iff (s : StoreState) (sid : String) :
    (bookedSlotIds s).contains sid = true ↔ BookedBy s sid := by
  simp only [List.contains, List.elem_iff, bookedSlotIds, List.mem_map, List.mem_filter,
    BookedBy, Bool.not_eq_true', beq_eq_false_iff_ne]
  constructor
  · rintro ⟨b, ⟨hb, hst⟩, hsid⟩
    exact ⟨b, hb, hst, hsid⟩
  · rintro ⟨b, hb, hst, hsid⟩
    exact ⟨b, ⟨hb, hst⟩, hsid⟩

lemma blockedSlotIds_contains_iff (s : StoreState) (sid : String) :
    (blockedSlotIds s).contains sid = true ↔ RuleBlocked s sid := by
  simp only [List.contains, List.elem_iff, blockedSlotIds, List.mem_flatMap, List.mem_filter,
    List.mem_map, RuleBlocked]
  constructor
  · rintro ⟨r, ⟨hr, hbl⟩, t, ht, hsid⟩
    exact ⟨r, hr, hbl, t, ht, hsid⟩
  · rintro ⟨r, hr, hbl, t, ht, hsid⟩
    exact ⟨r, ⟨hr, hbl⟩, t, ht, hsid⟩

lemma bool_not_and_not_eq_false (a b : Bool) :
    (!a && !b) = false ↔ a = true ∨ b = true := by
  cases a <;> cases b <;> simp

lemma mem_getAvailableSlots_available_iff (s : StoreState) (sl : TimeSlot)
    (hsl : sl ∈ (getAvailableSlots s).1) :
    (sl.available = false ↔ BookedBy s sl.id ∨ RuleBlocked s sl.id) := by
  simp only [getAvailableSlots, List.mem_map] at hsl
  obtain ⟨orig, _, rfl⟩ := hsl
  simp only [bool_not_and_not_eq_false, bookedSlotIds_contains_iff, blockedSlotIds_contains_iff]

/-! ## Concrete demonstration data -/

/-- A single generated-shape slot used by concrete scenarios. -/
def demoSlot : TimeSlot :=
  { id := "2025-01-06-09:00", date := "2025-01-06", time := "09:00", available := true }

/-- A store holding just the demo slot and nothing else. -/
def demoState : StoreState := { bookings := [], slots := [demoSlot], availabilityRules := [] }

/-! ## C5: the availability query -/

/-- A slot whose static available flag is cleared. -/
def staleSlot : TimeSlot :=
  { id := "2025-01-06-09:00", date := "2025-01-06", time := "09:00", available := false }

/-- A store whose only slot is statically unavailable, with no bookings
and no rules. -/
def staleState : StoreState := { bookings := [], slots := [staleSlot], availabilityRules := [] }

/-- C5, counterexample.  The claim makes a slot unavailable when its own
static unavailability flag is set; the query in the code discards the
stored flag and recomputes availability from bookings and rules alone,
so a statically unavailable slot with no booking and no rule is reported
available. -/
theorem staticFlag_ignored_cex :
    staleSlot.available = false ∧ staleState.bookings = [] ∧
    staleState.availabilityRules = [] ∧
    (getAvailableSlots staleState).1.map TimeSlot.available = [true] := by
  decide

/-- C5, amended.  getAvailableSlots mutates no store state, keeps every
slot of the generated list (it only rewrites the available flag), and
reports a slot unavailable exactly when a non-denied booking references
its id or a blocking availability rule covers its id; the slot's own
static flag does not enter the computation. -/
theorem getAvailableSlots_spec (s : StoreState) :
    (getAvailableSlots s).2 = s ∧
    (getAvailableSlots s).1.map (fun sl => { sl with available := true }) =
      s.slots.map (fun sl => { sl with available := true }) ∧
    ∀ sl ∈ (getAvailableSlots s).1,
      (sl.available = false ↔ BookedBy s sl.id ∨ RuleBlocked s sl.id) := by
  exact ⟨rfl, by simp [getAvailableSlots],
    fun sl hsl => mem_getAvailableSlots_available_iff s sl hsl⟩

/-- C5, witness for the amended theorem at a concrete state and slot:
the slot the query reports as available is indeed neither booked nor
blocked there. -/
theorem getAvailableSlots_spec_witness :
    (getAvailableSlots staleState).2 = staleState ∧
    ¬ (BookedBy staleState "2025-01-06-09:00" ∨ RuleBlocked staleState "2025-01-06-09:00") := by
  have h := (getAvailableSlots_spec staleState).2.2
    ({ staleSlot with available := true }) (by decide)
  exact ⟨(getAvailableSlots_spec staleState).1, fun hc => by simpa using h.mpr hc⟩

/-! ## C10: non-blocking rules are inert -/

/-- C10.  A rule with the blocked flag clear is invisible to the
availability query: the flags after setAvailability with isBlocked false
coincide with those of the state whose only change is that the rules for
that date were dropped (the state "without that rule"), and, in general,
appending any non-blocking rule to any state leaves every computed
available flag unchanged. -/
theorem nonBlocking_rule_inert (s : StoreState) (data : AvailabilityRequest)
    (freshId createdAt : String) (hnb : data.isBlocked = false) :
    (getAvailableSlots ((setAvailability s data freshId createdAt).2)).1 =
      (getAvailableSlots { s with availabilityRules :=
        s.availabilityRules.filter (fun r => !(r.date == data.date)) }).1 ∧
    ∀ (s2 : StoreState) (rule : AvailabilityRule), rule.isBlocked = false →
      (getAvailableSlots { s2 with availabilityRules := s2.availabilityRules ++ [rule] }).1 =
        (getAvailableSlots s2).1 := by
  constructor
  · simp [getAvailableSlots, setAvailability, mkRule, bookedSlotIds, blockedSlotIds,
      List.filter_append, hnb]
  · intro s2 rule hr
    simp [getAvailableSlots, bookedSlotIds, blockedSlotIds, List.filter_append, hr]

/-- C10, witness: the blanket non-blocking rule for the demo date leaves
the demo slot exactly as available as with no rule at all. -/
theorem nonBlocking_rule_inert_witness :
    (getAvailableSlots ((setAvailability demoState
        { date := "2025-01-06", timeSlots := ["09:00"], isBlocked := false, reason := none }
        "rule-1" "ts0").2)).1 =
      (getAvailableSlots { demoState with availabilityRules :=
        demoState.availabilityRules.filter (fun r => !(r.date == "2025-01-06")) }).1 :=
  (nonBlocking_rule_inert demoState
    { date := "2025-01-06", timeSlots := ["09:00"], isBlocked := false, reason := none }
    "rule-1" "ts0" rfl).1

/-! ## C3: validation order of createBooking -/

/-- C3, counterexample.  The first validation check of createBooking
tests name, email and reason together and yields one combined message:
the error for a blank name alone, a blank email alone, and both blank is
the same string, so there is no name-specific first error; moreover a
blank reason is reported before the missing at-sign check, not after it
as the claimed ordering requires. -/
theorem createBooking_combined_message_cex :
    (createBooking demoState
        { slotId := "2025-01-06-09:00", name := "", email := "", reason := "see doctor" }
        "bk1" "ts1").1 = Except.error "Missing required information" ∧
    (createBooking demoState
        { slotId := "2025-01-06-09:00", name := "", email := "alice@example.com",
          reason := "see doctor" } "bk1" "ts1").1 =
      Except.error "Missing required information" ∧
    (createBooking demoState
        { slotId := "2025-01-06-09:00", name := "Alice", email := "",
          reason := "see doctor" } "bk1" "ts1").1 =
      Except.error "Missing required information" ∧
    (createBooking demoState
        { slotId := "2025-01-06-09:00", name := "Alice", email := "no-at-sign",
          reason := "" } "bk1" "ts1").1 =
      Except.error "Missing required information" :=
  ⟨rfl, rfl, rfl, rfl⟩

/-- C3, amended.  createBooking fails fast, but its first rule tests
name, email and reason at once: whenever any of the three is blank the
result is the single combined missing-information error, deterministically
and with the state unchanged, regardless of every other field; the
remaining checks (missing at-sign, unknown slot, conflict) run in that
order only after all three fields are present. -/
theorem createBooking_missing_fields_first (s : StoreState) (data : BookingRequest)
    (freshId createdAt : String)
    (h : data.name = "" ∨ data.email = "" ∨ data.reason = "") :
    createBooking s data freshId createdAt =
      (Except.error "Missing required information", s) := by
  unfold createBooking
  rcases h with h | h | h <;> simp [h]

/-- C3, witness: both name and email blank yields the combined message. -/
theorem createBooking_missing_fields_first_witness :
    createBooking demoState
        { slotId := "2025-01-06-09:00", name := "", email := "", reason := "see doctor" }
        "bk1" "ts1" =
      (Except.error "Missing required information", demoState) :=
  createBooking_missing_fields_first demoState
    { slotId := "2025-01-06-09:00", name := "", email := "", reason := "see doctor" }
    "bk1" "ts1" (Or.inl rfl)

/-! ## C9: createBooking is atomic on failure -/

/-- C9.  Every error return of createBooking leaves the store exactly as
it was, and a success return changes nothing except appending the one
new booking to the booking collection. -/
theorem createBooking_atomic (s : StoreState) (data : BookingRequest)
    (freshId createdAt : String) :
    (∀ msg, (createBooking s data freshId createdAt).1 = Except.error msg →
      (createBooking s data freshId createdAt).2 = s) ∧
    (∀ b, (createBooking s data freshId createdAt).1 = Except.ok b →
      (createBooking s data freshId createdAt).2.slots = s.slots ∧
      (createBooking s data freshId createdAt).2.availabilityRules = s.availabilityRules ∧
      (createBooking s data freshId createdAt).2.bookings = s.bookings ++ [b]) := by
  unfold createBooking
  repeat' split
  · exact ⟨fun _ _ => rfl, fun b hb => by simp at hb⟩
  · exact ⟨fun _ _ => rfl, fun b hb => by simp at hb⟩
  · exact ⟨fun _ _ => rfl, fun b hb => by simp at hb⟩
  · exact ⟨fun _ _ => rfl, fun b hb => by simp at hb⟩
  · refine ⟨fun msg hm => by simp at hm, fun b hb => ?_⟩
    cases Except.ok.inj hb
    exact ⟨rfl, rfl, rfl⟩

/-- C9, witness: a rejected booking (unknown slot id) leaves the demo
store untouched. -/
theorem createBooking_atomic_witness :
    (createBooking demoState
        { slotId := "no-such-slot", name := "Alice", email := "alice@example.com",
          reason := "see doctor" } "bk1" "ts1").2 = demoState :=
  (createBooking_atomic demoState
    { slotId := "no-such-slot", name := "Alice", email := "alice@example.com",
      reason := "see doctor" } "bk1" "ts1").1 "Invalid time slot" rfl

/-! ## C8: updateBookingStatus -/

lemma applyStatusFirst_find? (bookingId : String) (st : BookingStatus) (l : List Booking) :
    (applyStatusFirst bookingId st l).find? (fun x => x.id == bookingId) =
      (l.find? (fun x => x.id == bookingId)).map (fun b => { b with status := st }) := by
  induction l with
  | nil => rfl
  | cons b rest ih =>
    by_cases h : (b.id == bookingId) = true
    · have h2 : (({ b with status := st } : Booking).id == bookingId) = true := h
      simp [applyStatusFirst, h, h2, List.find?_cons_of_pos]
    · have h2 : (({ b with status := st } : Booking).id == bookingId) = false := by
        simpa using h
      simp only [applyStatusFirst, if_neg h]
      rw [List.find?_cons_of_neg _ (by simpa using h), List.find?_cons_of_neg _ (by simpa using h)]
      exact ih

lemma applyStatusFirst_idem (bookingId : String) (st : BookingStatus) (l : List Booking) :
    applyStatusFirst bookingId st (applyStatusFirst bookingId st l) =
      applyStatusFirst bookingId st l := by
  induction l with
  | nil => rfl
  | cons b rest ih =>
    by_cases h : (b.id == bookingId) = true
    · have h2 : (({ b with status := st } : Booking).id == bookingId) = true := h
      simp [applyStatusFirst, h, h2]
    · simp [applyStatusFirst, h, ih]

/-- C8.  updateBookingStatus answers the not-found error exactly when no
booking carries the id; when one does, it returns success with the
target status written into the returned booking and into the stored
collection, unconditionally of the previous status; and a second
identical call also succeeds and leaves the state of the first call
unchanged, so re-applying approved twice keeps the booking approved and
never errors. -/
theorem updateBookingStatus_spec (s : StoreState) (bookingId : String)
    (status : BookingStatus) :
    ((updateBookingStatus s bookingId status).1 = Except.error "Booking not found" ↔
      ∀ b ∈ s.bookings, b.id ≠ bookingId) ∧
    ((∃ b ∈ s.bookings, b.id = bookingId) →
      (∃ b2, (updateBookingStatus s bookingId status).1 = Except.ok b2 ∧
        b2.status = status) ∧
      ((updateBookingStatus s bookingId status).2.bookings.find?
          (fun x => x.id == bookingId)).map Booking.status = some status) ∧
    ((∃ b ∈ s.bookings, b.id = bookingId) →
      (∃ b2, (updateBookingStatus ((updateBookingStatus s bookingId status).2)
          bookingId status).1 = Except.ok b2 ∧ b2.status = status) ∧
      (updateBookingStatus ((updateBookingStatus s bookingId status).2)
          bookingId status).2 = (updateBookingStatus s bookingId status).2) := by
  refine ⟨?_, ?_, ?_⟩
  · cases hfind : s.bookings.find? (fun x => x.id == bookingId) with
    | none =>
      have hall : ∀ b ∈ s.bookings, b.id ≠ bookingId := by
        intro b hb
        have := List.find?_eq_none.mp hfind b hb
        simpa using this
      simpa [updateBookingStatus, hfind] using hall
    | some b0 =>
      have hmem := List.mem_of_find?_eq_some hfind
      have heq : b0.id = bookingId := by simpa using List.find?_some hfind
      simp only [updateBookingStatus, hfind]
      exact iff_of_false (by simp) (fun hall => hall b0 hmem heq)
  · rintro ⟨b, hb, hid⟩
    have hsome : (s.bookings.find? (fun x => x.id == bookingId)).isSome := by
      exact List.find?_isSome.mpr ⟨b, hb, by simp [hid]⟩
    cases hfind : s.bookings.find? (fun x => x.id == bookingId) with
    | none => rw [hfind] at hsome; simp at hsome
    | some b0 =>
      refine ⟨⟨{ b0 with status := status }, by simp [updateBookingStatus, hfind], rfl⟩, ?_⟩
      simp [updateBookingStatus, hfind, applyStatusFirst_find?]
  · rintro ⟨b, hb, hid⟩
    have hsome : (s.bookings.find? (fun x => x.id == bookingId)).isSome := by
      exact List.find?_isSome.mpr ⟨b, hb, by simp [hid]⟩
    cases hfind : s.bookings.find? (fun x => x.id == bookingId) with
    | none => rw [hfind] at hsome; simp at hsome
    | some b0 =>
      have hfind2 : List.find? (fun b => b.id == bookingId)
          (applyStatusFirst bookingId status s.bookings) =
          some { b0 with status := status } := by
        rw [applyStatusFirst_find?, hfind]
        rfl
      constructor
      · exact ⟨{ b0 with status := status },
          by simp [updateBookingStatus, hfind, hfind2], rfl⟩
      · simp [updateBookingStatus, hfind, hfind2, applyStatusFirst_idem]

/-- A booking and a one-booking store used by concrete witnesses. -/
def demoBooking : Booking :=
  { id := "bk1", slotId := "2025-01-06-09:00", name := "Alice",
    email := "alice@example.com", reason := "see doctor",
    status := BookingStatus.pending, date := "2025-01-06", time := "09:00",
    createdAt := "ts1" }

/-- Demo store holding the demo booking on the demo slot. -/
def demoBookedState : StoreState :=
  { bookings := [demoBooking], slots := [demoSlot], availabilityRules := [] }

/-- C8, witness: approving the demo booking twice succeeds both times
and leaves the stored status approved. -/
theorem updateBookingStatus_spec_witness :
    (((updateBookingStatus demoBookedState "bk1" BookingStatus.approved).2.bookings.find?
        (fun x => x.id == "bk1")).map Booking.status = some BookingStatus.approved) ∧
    (updateBookingStatus ((updateBookingStatus demoBookedState "bk1"
        BookingStatus.approved).2) "bk1" BookingStatus.approved).2 =
      (updateBookingStatus demoBookedState "bk1" BookingStatus.approved).2 := by
  have h := updateBookingStatus_spec demoBookedState "bk1" BookingStatus.approved
  have hex : ∃ b ∈ demoBookedState.bookings, b.id = "bk1" :=
    ⟨demoBooking, by decide, rfl⟩
  exact ⟨(h.2.1 hex).2, (h.2.2 hex).2⟩

/-! ## C4: the conflict check of createBooking -/

lemma createBooking_characterization (s : StoreState) (data : BookingRequest)
    (freshId createdAt : String)
    (hn : (data.name == "") = false) (he : (data.email == "") = false)
    (hr : (data.reason == "") = false)
    (hat : data.email.data.contains '@' = true)
    (hslot : ∃ sl ∈ s.slots, sl.id = data.slotId) :
    (BookedBy s data.slotId →
      createBooking s data freshId createdAt =
        (Except.error "Time slot is already booked", s)) ∧
    (¬ BookedBy s data.slotId →
      ∃ b, createBooking s data freshId createdAt =
          (Except.ok b, { s with bookings := s.bookings ++ [b] }) ∧
        b.slotId = data.slotId ∧ b.status = BookingStatus.pending) := by
  have hatm : '@' ∈ data.email.data := by simpa using hat
  obtain ⟨sl, hsl, hslid⟩ := hslot
  have hfindSlot : (s.slots.find? (fun x => x.id == data.slotId)).isSome :=
    List.find?_isSome.mpr ⟨sl, hsl, by simp [hslid]⟩
  cases hfs : s.slots.find? (fun x => x.id == data.slotId) with
  | none => rw [hfs] at hfindSlot; simp at hfindSlot
  | some sl0 =>
    cases hfb : s.bookings.find? (fun b =>
        b.slotId == data.slotId && !(b.status == BookingStatus.denied)) with
    | none =>
      have hnb : ¬ BookedBy s data.slotId := by
        rintro ⟨b, hb, hst, hsid⟩
        apply List.find?_eq_none.mp hfb b hb
        simp [hsid, hst]
      constructor
      · exact fun hbk => absurd hbk hnb
      · intro _
        refine ⟨newBooking data sl0 freshId createdAt, ?_, rfl, rfl⟩
        unfold createBooking
        simp [hn, he, hr, hatm, hfs, hfb]
    | some b0 =>
      have hbk : BookedBy s data.slotId := by
        have hmem := List.mem_of_find?_eq_some hfb
        have hp := List.find?_some hfb
        simp only [Bool.and_eq_true, beq_iff_eq, Bool.not_eq_true',
          beq_eq_false_iff_ne] at hp
        exact ⟨b0, hmem, hp.2, hp.1⟩
      constructor
      · intro _
        unfold createBooking
        simp [hn, he, hr, hatm, hfs, hfb]
      · exact fun hnb => absurd hbk hnb

/-- C4.  For a fully valid request against an existing slot, createBooking
answers the conflict error exactly when some non-denied booking already
references the slot id; when none does (in particular when every booking
on the slot has been denied) the request succeeds with a fresh pending
booking; and a second valid request against the same slot right after a
successful one answers the conflict error. -/
theorem createBooking_conflict_spec (s : StoreState) (data : BookingRequest)
    (freshId createdAt : String)
    (hn : data.name ≠ "") (he : data.email ≠ "") (hr : data.reason ≠ "")
    (hat : data.email.data.contains '@' = true)
    (hslot : ∃ sl ∈ s.slots, sl.id = data.slotId) :
    ((createBooking s data freshId createdAt).1 =
        Except.error "Time slot is already booked" ↔ BookedBy s data.slotId) ∧
    (¬ BookedBy s data.slotId →
      ∃ b, (createBooking s data freshId createdAt).1 = Except.ok b ∧
        b.slotId = data.slotId ∧ b.status = BookingStatus.pending) ∧
    (¬ BookedBy s data.slotId → ∀ (data2 : BookingRequest) (fid2 ts2 : String),
      data2.slotId = data.slotId → data2.name ≠ "" → data2.email ≠ "" →
      data2.reason ≠ "" → data2.email.data.contains '@' = true →
      (createBooking ((createBooking s data freshId createdAt).2) data2 fid2 ts2).1 =
        Except.error "Time slot is already booked") := by
  have hch := createBooking_characterization s data freshId createdAt
    (by simpa using hn) (by simpa using he) (by simpa using hr) hat hslot
  refine ⟨⟨?_, fun hbk => by rw [hch.1 hbk]⟩, fun hnb => ?_, fun hnb data2 fid2 ts2 hsid2 hn2 he2 hr2 hat2 => ?_⟩
  · intro hres
    by_contra hnb
    obtain ⟨b, hpair, _, _⟩ := hch.2 hnb
    rw [hpair] at hres
    simp at hres
  · obtain ⟨b, hpair, hbs, hbp⟩ := hch.2 hnb
    exact ⟨b, by rw [hpair], hbs, hbp⟩
  · obtain ⟨b, hpair, hbs, hbp⟩ := hch.2 hnb
    rw [hpair]
    have hslot2 : ∃ sl ∈ ({ s with bookings := s.bookings ++ [b] } : StoreState).slots,
        sl.id = data2.slotId := by
      obtain ⟨sl, hsl, hslid⟩ := hslot
      exact ⟨sl, hsl, by rw [hslid, hsid2]⟩
    have hbk2 : BookedBy { s with bookings := s.bookings ++ [b] } data2.slotId := by
      refine ⟨b, List.mem_append_right _ (List.mem_singleton_self b), ?_, by rw [hbs, hsid2]⟩
      rw [hbp]
      exact fun hcon => BookingStatus.noConfusion hcon
    have hch2 := createBooking_characterization { s with bookings := s.bookings ++ [b] }
      data2 fid2 ts2 (by simpa using hn2) (by simpa using he2) (by simpa using hr2)
      hat2 hslot2
    rw [hch2.1 hbk2]

/-- The first valid demo request against the demo slot. -/
def requestA : BookingRequest :=
  { slotId := "2025-01-06-09:00", name := "Alice", email := "alice@example.com",
    reason := "see doctor" }

/-- The second valid demo request against the demo slot. -/
def requestB : BookingRequest :=
  { slotId := "2025-01-06-09:00", name := "Bob", email := "bob@example.com",
    reason := "follow up" }

/-- C4, witness: issuing the two valid demo requests against the demo
slot in sequence makes the second one answer the conflict error. -/
theorem createBooking_conflict_spec_witness :
    (createBooking ((createBooking demoState requestA "bk1" "ts1").2)
        requestB "bk2" "ts2").1 = Except.error "Time slot is already booked" :=
  (createBooking_conflict_spec demoState requestA "bk1" "ts1"
      (by decide) (by decide) (by decide) (by decide)
      ⟨demoSlot, by decide, rfl⟩).2.2
    (by rintro ⟨b, hb, -, -⟩; simp [demoState] at hb)
    requestB "bk2" "ts2" rfl (by decide) (by decide) (by decide) (by decide)

/-! ## C1: the at-most-one-non-denied-booking invariant -/

lemma nonDeniedSlotIds_append (l1 l2 : List Booking) :
    nonDeniedSlotIds (l1 ++ l2) = nonDeniedSlotIds l1 ++ nonDeniedSlotIds l2 := by
  simp [nonDeniedSlotIds, List.filter_append]

/-- C1, amended.  createBooking preserves the invariant that at most one
non-denied booking references any slot id: the conflict check refuses
the request whenever a non-denied booking already holds the slot, so the
appended pending booking never duplicates a live slot id.  (The
unconditional overwrite in updateBookingStatus does not preserve the
invariant; see the accompanying counterexample.) -/
theorem createBooking_preserves_noDoubleBook (s : StoreState) (data : BookingRequest)
    (freshId createdAt : String) (h : NoDoubleBook s.bookings) :
    NoDoubleBook ((createBooking s data freshId createdAt).2).bookings := by
  unfold createBooking
  split
  · exact h
  · split
    · exact h
    · split
      · exact h
      · rename_i slot hfs
        split
        · exact h
        · rename_i hfb
          show NoDoubleBook (s.bookings ++ [newBooking data slot freshId createdAt])
          rw [NoDoubleBook, nonDeniedSlotIds_append, List.nodup_append]
          refine ⟨h, by simp [nonDeniedSlotIds, newBooking], ?_⟩
          intro a ha hb
          have hb2 : a = data.slotId := by
            simpa [nonDeniedSlotIds, newBooking] using hb
          simp only [nonDeniedSlotIds, List.mem_map, List.mem_filter] at ha
          obtain ⟨b, ⟨hbmem, hbst⟩, hbsid⟩ := ha
          apply List.find?_eq_none.mp hfb b hbmem
          rw [hbsid, hb2]
          simpa using hbst

/-- C1, witness: preservation applied to the demo store, whose single
pending demo booking satisfies the invariant. -/
theorem createBooking_preserves_noDoubleBook_witness :
    NoDoubleBook ((createBooking demoBookedState requestB "bk2" "ts2").2).bookings :=
  createBooking_preserves_noDoubleBook demoBookedState requestB "bk2" "ts2" (by decide)

/-- The store as built by the service constructor on local Monday
2025-01-06 at noon in the UTC zone. -/
def traceState0 : StoreState := initialState 20094 720 0

/-- After a first valid booking of the 09:00 Monday slot. -/
def traceState1 : StoreState := (createBooking traceState0 requestA "bk1" "ts1").2

/-- After the admin denies that booking. -/
def traceState2 : StoreState :=
  (updateBookingStatus traceState1 "bk1" BookingStatus.denied).2

/-- After a second valid booking of the freed slot. -/
def traceState3 : StoreState := (createBooking traceState2 requestB "bk2" "ts2").2

/-- After the admin re-decides the first, denied booking to approved. -/
def traceState4 : StoreState :=
  (updateBookingStatus traceState3 "bk1" BookingStatus.approved).2

/-- C1, counterexample.  A state reached from the constructor state by
store operations alone satisfies the invariant right until
updateBookingStatus re-approves an already-denied booking whose slot has
since been rebooked: the resulting reachable state carries two
non-denied bookings on the 09:00 Monday slot. -/
theorem noDoubleBook_violated_by_redecide :
    NoDoubleBook traceState3.bookings ∧ ¬ NoDoubleBook traceState4.bookings := by
  decide

/-! ## C2: CSV quoting -/

/-- Consume the body of a standard quoted CSV field after its opening
quote: an inner doubled quote stands for one literal quote, a single
quote closes the field, and the parse succeeds only when the closing
quote ends the input. -/
def parseQuotedRest : List Char → Option (List Char)
  | [] => none
  | c :: rest =>
    if c = '"' then
      match rest with
      | [] => some []
      | c2 :: rest2 =>
        if c2 = '"' then (parseQuotedRest rest2).map (fun v => '"' :: v)
        else none
    else (parseQuotedRest rest).map (fun v => c :: v)

/-- Parse one complete quoted CSV field by the standard quoting rule. -/
def parseCSVField (cs : List Char) : Option (List Char) :=
  match cs with
  | c :: rest => if c = '"' then parseQuotedRest rest else none
  | [] => none

lemma parseQuotedRest_cons_ne (c : Char) (rest : List Char) (hc : ¬ c = '"') :
    parseQuotedRest (c :: rest) = (parseQuotedRest rest).map (fun v => c :: v) := by
  conv_lhs => unfold parseQuotedRest
  rw [if_neg hc]

lemma parseQuotedRest_no_quote (cs : List Char) (h : ∀ c ∈ cs, c ≠ '"') :
    parseQuotedRest (cs ++ ['"']) = some cs := by
  induction cs with
  | nil => rfl
  | cons c rest ih =>
    rw [List.cons_append, parseQuotedRest_cons_ne c _ (h c (List.mem_cons_self c rest)),
      ih (fun x hx => h x (List.mem_cons_of_mem c hx))]
    rfl

/-- A booking whose reason contains a double quote, and a store holding
only it. -/
def quoteBooking : Booking :=
  { id := "bk9", slotId := "2025-01-06-09:00", name := "Carol",
    email := "carol@example.com", reason := "He said \"hi\"",
    status := BookingStatus.pending, date := "2025-01-06", time := "09:00",
    createdAt := "ts9" }

/-- Store holding only the quoted-reason booking. -/
def quoteState : StoreState :=
  { bookings := [quoteBooking], slots := [], availabilityRules := [] }

/-- C2, counterexample.  The export wraps fields in double quotes without
doubling embedded quotes: the reason containing a double quote serializes
to a field that is not the claimed escaped form, the full export shows
the raw quote inside the field, parsing the actual field by the standard
quoting rule fails to recover the original string, while the escaped
field the claim predicts would have parsed back exactly. -/
theorem csv_no_escaping_cex :
    csvField "He said \"hi\"" = "\"He said \"hi\"\"" ∧
    csvField "He said \"hi\"" ≠ "\"He said \"\"hi\"\"\"" ∧
    exportBookingsCSV (fun t => t) quoteState =
      "\"ID\",\"Name\",\"Email\",\"Date\",\"Time\",\"Reason\",\"Status\",\"Created At\"\n\"bk9\",\"Carol\",\"carol@example.com\",\"2025-01-06\",\"09:00\",\"He said \"hi\"\",\"pending\",\"ts9\"" ∧
    parseCSVField (csvField "He said \"hi\"").data ≠ some ("He said \"hi\"").data ∧
    parseCSVField ("\"He said \"\"hi\"\"\"").data = some ("He said \"hi\"").data := by
  refine ⟨rfl, by decide, rfl, by decide, by decide⟩

/-- C2, amended.  Every field of the export is the raw field surrounded
by double quotes with no escaping applied, so the standard quoting rule
recovers a field exactly when the field value contains no double quote;
fields with an embedded double quote do not round-trip. -/
theorem csv_quote_free_roundtrip :
    (∀ (formatTimestamp : String → String) (s : StoreState),
      exportBookingsCSV formatTimestamp s = String.intercalate "\n"
        ((csvHeaders :: s.bookings.map (bookingRow formatTimestamp)).map
          (fun row => String.intercalate "," (row.map csvField)))) ∧
    (∀ f : String, (∀ c ∈ f.data, c ≠ '"') →
      parseCSVField (csvField f).data = some f.data) := by
  refine ⟨fun formatTimestamp s => rfl, fun f h => ?_⟩
  show parseCSVField (("\"" ++ f ++ "\"").data) = some f.data
  rw [String.data_append, String.data_append]
  have h1 : ("\"" : String).data = ['"'] := rfl
  rw [h1]
  show parseCSVField ('"' :: (f.data ++ ['"'])) = some f.data
  simp only [parseCSVField, if_pos rfl]
  exact parseQuotedRest_no_quote f.data h

/-- C2, witness: a quote-free reason field round-trips through the
export quoting and the standard parse. -/
theorem csv_quote_free_roundtrip_witness :
    parseCSVField (csvField "see doctor").data = some ("see doctor").data :=
  csv_quote_free_roundtrip.2 "see doctor" (by decide)

/-! ## C6: shape of the generated slot grid -/

/-- C6, evaluation at the failing input.  Day number 20094 is local
Monday 2025-01-06; generating at 02:00 local time (120 minutes) in a
zone 480 minutes ahead of UTC makes toISOString render each local date
one day earlier, so the service generates a slot dated Sunday 2025-01-05
even though the claim (and the repository documentation) promise
Monday-to-Friday slots only. -/
theorem generateWeeklySlots_sunday_at_utc8 :
    weekdayOf 20094 = 1 ∧
    toISODate 20094 = "2025-01-06" ∧
    weekdayOf 20093 = 0 ∧
    toISODate 20093 = "2025-01-05" ∧
    generatedDates 20094 120 480 = [20093, 20094, 20095, 20096, 20097] ∧
    (generateWeeklySlots 20094 120 480).head?.map TimeSlot.date = some "2025-01-05" ∧
    ((generateWeeklySlots 20094 120 480).map TimeSlot.date).contains "2025-01-05" = true := by
  decide

/-! ## C7: block-then-delete on availability rules -/

lemma removeFirstRule_append_fresh (l : List AvailabilityRule) (rule : AvailabilityRule)
    (rid : String) (hl : ∀ r ∈ l, r.id ≠ rid) (hr : rule.id = rid) :
    removeFirstRule rid (l ++ [rule]) = l := by
  induction l with
  | nil => simp [removeFirstRule, hr]
  | cons r0 rest ih =>
    have h0 : ¬ ((r0.id == rid) = true) := by
      simpa using hl r0 (List.mem_cons_self r0 rest)
    simp only [List.cons_append, removeFirstRule, if_neg h0, List.append_eq]
    rw [ih (fun r hmem => hl r (List.mem_cons_of_mem r0 hmem))]

/-- The prior blocking rule for the demo date used by the C7
counterexample. -/
def priorRule : AvailabilityRule :=
  { id := "rule-old", date := "2025-01-06", timeSlots := ["09:00"], isBlocked := true,
    reason := none, createdAt := "ts0" }

/-- Demo store whose only slot is already blocked by the prior rule. -/
def c7State0 : StoreState :=
  { bookings := [], slots := [demoSlot], availabilityRules := [priorRule] }

/-- After blocking the same slot again via setAvailability. -/
def c7State1 : StoreState :=
  (setAvailability c7State0
    { date := "2025-01-06", timeSlots := ["09:00"], isBlocked := true, reason := none }
    "rule-new" "ts1").2

/-- After deleting the rule just created. -/
def c7State2 : StoreState := (deleteAvailabilityRule c7State1 "rule-new").2

/-- C7, counterexample.  With a pre-existing blocking rule for the date,
the slot starts out unavailable with no booking on it; setAvailability
silently discards that prior rule, so deleting the new rule leaves the
slot available: block-then-delete does not round-trip to the original
availability. -/
theorem blockDelete_not_roundtrip_cex :
    c7State0.bookings = [] ∧
    (getAvailableSlots c7State0).1.map TimeSlot.available = [false] ∧
    (getAvailableSlots c7State2).1.map TimeSlot.available = [true] ∧
    c7State2 ≠ c7State0 := by
  decide

/-- C7, amended.  For a slot of the store with id date ++ "-" ++ time, no
non-denied booking on it, a fresh rule id, and no differently-dated rule
colliding with its id: after setAvailability blocking that time the query
reports the slot unavailable, after deleting the new rule by id the query
reports it available, and when no rule for that date existed beforehand
the delete restores the store exactly, so availability round-trips in
that case. -/
theorem setAvailability_block_delete_spec (s : StoreState)
    (d t freshId createdAt : String) (reason2 : Option String) (sl : TimeSlot)
    (hsl : sl ∈ s.slots) (hid : sl.id = d ++ "-" ++ t)
    (hnb : ¬ BookedBy s sl.id)
    (hfresh : ∀ r ∈ s.availabilityRules, r.id ≠ freshId)
    (hcov : ∀ r ∈ s.availabilityRules, r.isBlocked = true →
      ∀ t2 ∈ r.timeSlots, r.date ++ "-" ++ t2 = sl.id → r.date = d) :
    (∃ x ∈ (getAvailableSlots ((setAvailability s
        ⟨d, [t], true, reason2⟩ freshId createdAt).2)).1, x.id = sl.id) ∧
    (∀ x ∈ (getAvailableSlots ((setAvailability s
        ⟨d, [t], true, reason2⟩ freshId createdAt).2)).1,
      x.id = sl.id → x.available = false) ∧
    (∀ x ∈ (getAvailableSlots ((deleteAvailabilityRule ((setAvailability s
        ⟨d, [t], true, reason2⟩ freshId createdAt).2) freshId).2)).1,
      x.id = sl.id → x.available = true) ∧
    ((∀ r ∈ s.availabilityRules, r.date ≠ d) →
      (deleteAvailabilityRule ((setAvailability s
        ⟨d, [t], true, reason2⟩ freshId createdAt).2) freshId).2 = s) := by
  have hkept : ∀ r ∈ s.availabilityRules.filter (fun rule => !(rule.date == d)),
      r ∈ s.availabilityRules ∧ r.date ≠ d := by
    intro r hr
    have := List.mem_filter.mp hr
    exact ⟨this.1, by simpa using this.2⟩
  have hdel : (deleteAvailabilityRule ((setAvailability s
      ⟨d, [t], true, reason2⟩ freshId createdAt).2) freshId).2 =
      { s with availabilityRules :=
        s.availabilityRules.filter (fun rule => !(rule.date == d)) } := by
    unfold deleteAvailabilityRule setAvailability
    rw [if_pos]
    · have := removeFirstRule_append_fresh
        (s.availabilityRules.filter (fun rule => !(rule.date == d)))
        (mkRule ⟨d, [t], true, reason2⟩ freshId createdAt)
        freshId (fun r hr => (hkept r hr).1 |> hfresh r) rfl
      simp only [this]
    · rw [List.any_eq_true]
      refine ⟨mkRule ⟨d, [t], true, reason2⟩ freshId createdAt,
        List.mem_append_right _ ?_, by simp [mkRule]⟩
      exact List.mem_singleton_self _
  refine ⟨?_, ?_, ?_, ?_⟩
  · exact ⟨_, List.mem_map_of_mem _ hsl, rfl⟩
  · intro x hx hxid
    have hiff := mem_getAvailableSlots_available_iff _ x hx
    refine hiff.mpr (Or.inr ?_)
    refine ⟨mkRule ⟨d, [t], true, reason2⟩ freshId createdAt,
      List.mem_append_right _ (List.mem_singleton_self _), rfl, t,
      List.mem_singleton_self t, ?_⟩
    rw [hxid, hid]
    rfl
  · intro x hx hxid
    have hiff := mem_getAvailableSlots_available_iff _ x hx
    rw [hdel] at hiff
    by_contra hxav
    simp only [Bool.not_eq_true] at hxav
    rcases hiff.mp hxav with ⟨b, hb, hst, hsid⟩ | ⟨r, hr, hbl, t2, ht2, heq⟩
    · exact hnb ⟨b, hb, hst, by rw [hsid, hxid]⟩
    · have hk := hkept r hr
      exact hk.2 (hcov r hk.1 hbl t2 ht2 (by rw [heq, hxid]))
  · intro hnone
    rw [hdel]
    have : s.availabilityRules.filter (fun rule => !(rule.date == d)) =
        s.availabilityRules := by
      apply List.filter_eq_self.mpr
      intro r hr
      simpa using hnone r hr
    rw [this]

/-- C7, witness: on the demo store (no bookings, no prior rules),
block-then-delete of the 09:00 Monday slot restores the store exactly. -/
theorem setAvailability_block_delete_spec_witness :
    (deleteAvailabilityRule ((setAvailability demoState
      ⟨"2025-01-06", ["09:00"], true, none⟩ "rule-1" "ts1").2) "rule-1").2 = demoState :=
  (setAvailability_block_delete_spec demoState "2025-01-06" "09:00" "rule-1" "ts1" none
      demoSlot (by decide) rfl (by rintro ⟨b, hb, -, -⟩; simp [demoState] at hb)
      (by intro r hr; simp [demoState] at hr)
      (by intro r hr; simp [demoState] at hr)).2.2.2
    (by intro r hr; simp [demoState] at hr)

end AppointmentStore
